import Mathlib

/-!
Verification development for the pyoperon binding layer
(src/source/dataset.cpp and src/source/pyoperon.cpp).

The binding layer is shallowly embedded: the engine scalar type is
modelled as `ℚ`, numpy arrays and buffers as records carrying their
shape, element-type information, storage-order flag and logical
(column-major) contents, and the fallible constructors as `Except` /
`Option` valued functions.  Engine functionality that lives behind the
binding (the `Operon::Dataset`, `Operon::Individual` and comparator
classes) is modelled from the spec where noted in the doc comments.
-/

namespace PyOperon

/-- Engine scalar type (`Operon::Scalar`), modelled as `ℚ`. -/
abbrev Scalar := ℚ

/-- Characters of a name packed into a natural number in base `2 ^ 33`;
each digit is the character's code point plus one, which makes the
encoding injective. -/
def encodeChars : List Char → Nat
  | [] => 0
  | c :: cs => encodeChars cs * 2 ^ 33 + (c.toNat + 1)

/-- Modelled from the spec: the variable hash is a
"64-bit identifier derived from Name".  The engine hash function itself
is outside the binding sources; it is modelled as an injective encoding
of the name. -/
def specHash (s : String) : Nat := encodeChars s.data

/-- Variable descriptor, bound in pyoperon.cpp lines 67-70 with
read-write fields `Name`, `Hash`, `Index`. -/
structure Variable where
  Name : String
  Hash : Nat
  Index : Nat
deriving DecidableEq, Repr, Inhabited

/-- Dataset state: a column-major matrix of scalars plus the ordered
variable descriptors (the `Operon::Dataset` wrapped by
src/source/dataset.cpp). -/
structure Dataset where
  cols : List (List Scalar)
  vars : List Variable
deriving DecidableEq, Repr

/-- Modelled from the spec: default variable names `X1`, `X2`, … given
to the columns of a Dataset constructed from a plain matrix. -/
def defaultName (i : Nat) : String := "X" ++ toString (i + 1)

/-- Modelled from the spec: Dataset construction from an in-memory
column-major matrix; one Variable per column whose Hash is derived from
its Name and whose Index is the column position. -/
def datasetOfMatrix (m : List (List Scalar)) : Dataset :=
  { cols := m
    vars := (List.range m.length).map fun i =>
      { Name := defaultName i, Hash := specHash (defaultName i), Index := i } }

/-- Row count (`Rows`, dataset.cpp line 89). -/
def Dataset.RowsN (ds : Dataset) : Nat := (ds.cols.headD []).length

/-- Column count (`Cols`, dataset.cpp line 90). -/
def Dataset.ColsN (ds : Dataset) : Nat := ds.cols.length

/-- Modelled from the spec: `GetValues(index)` (dataset.cpp line 95)
returns a view of one column. -/
def Dataset.GetValuesIdx (ds : Dataset) (i : Nat) : List Scalar :=
  ds.cols.getD i []

/-- Modelled from the spec: the `VariableNames` setter
(dataset.cpp line 92) renames the variables; each Hash is re-derived
from the new Name. -/
def Dataset.SetVariableNames (ds : Dataset) (names : List String) : Dataset :=
  { ds with vars := (List.range names.length).map fun i =>
      { Name := names.getD i "", Hash := specHash (names.getD i ""), Index := i } }

/-- Half-open row interval, bound in pyoperon.cpp lines 72-77. -/
structure Range where
  Start : Nat
  Stop : Nat
deriving DecidableEq, Repr

/-- Rows of a column selected by a `Range`. -/
def sliceOf (c : List Scalar) (r : Range) : List Scalar :=
  (c.drop r.Start).take (r.Stop - r.Start)

/-- Modelled from the spec: `Shuffle(seed)` (dataset.cpp line 102)
permutes the observation order in place; the seed-derived permutation is
modelled as a rotation by the seed. -/
def Dataset.Shuffle (ds : Dataset) (seed : Nat) : Dataset :=
  { ds with cols := ds.cols.map fun c => c.rotate seed }

/-- Minimum of the Range-restricted rows of a column. -/
def columnMin (c : List Scalar) (r : Range) : Scalar :=
  (sliceOf c r).foldr min ((sliceOf c r).headD 0)

/-- Maximum of the Range-restricted rows of a column. -/
def columnMax (c : List Scalar) (r : Range) : Scalar :=
  (sliceOf c r).foldr max ((sliceOf c r).headD 0)

/-- Modelled from the spec: `Normalize(column, range)`
(dataset.cpp line 103) rescales column `j` in place to `[0,1]` using
Range-restricted statistics. -/
def normalizeColumn (c : List Scalar) (r : Range) : List Scalar :=
  c.map fun x => (x - columnMin c r) / (columnMax c r - columnMin c r)

/-- Normalize applied to the stored matrix: only column `j` is replaced. -/
def Dataset.Normalize (ds : Dataset) (j : Nat) (r : Range) : Dataset :=
  { ds with cols := ds.cols.set j (normalizeColumn (ds.cols.getD j []) r) }

/-- Range-restricted mean of a column. -/
def columnMean (c : List Scalar) (r : Range) : Scalar :=
  (sliceOf c r).sum / ((sliceOf c r).length : Scalar)

/-- Range-restricted variance of a column. -/
def columnVar (c : List Scalar) (r : Range) : Scalar :=
  ((sliceOf c r).map fun x =>
    (x - columnMean c r) * (x - columnMean c r)).sum / ((sliceOf c r).length : Scalar)

/-- Modelled from the spec: `Standardize(column, range)`
(dataset.cpp line 104) rescales column `j` in place to zero mean and
unit variance using Range-restricted statistics.  The irrational square
root of the variance is modelled by the variance itself; the per-element
affine shape of the transform is what matters here. -/
def standardizeColumn (c : List Scalar) (r : Range) : List Scalar :=
  c.map fun x => (x - columnMean c r) / columnVar c r

/-- Standardize applied to the stored matrix: only column `j` is replaced. -/
def Dataset.Standardize (ds : Dataset) (j : Nat) (r : Range) : Dataset :=
  { ds with cols := ds.cols.set j (standardizeColumn (ds.cols.getD j []) r) }

/-- Numpy array handed to `MakeDataset(py::array_t<T>)`
(dataset.cpp lines 17-38): its shape, whether `T` is `Operon::Scalar`,
the `f_style` (column-major contiguous) flag, and the logical contents
as columns.  The bound instantiations (dataset.cpp lines 84-85) use
`T = float` or `T = double`, both arithmetic, so the `static_assert` at
line 20 always holds here. -/
structure NpArray where
  dims : List Nat
  tIsScalar : Bool
  fStyle : Bool
  cols : List (List Scalar)
deriving DecidableEq, Repr

/-- Python buffer handed to `MakeDataset(py::buffer)`
(dataset.cpp lines 56-74): shape, whether the format string equals the
`Operon::Scalar` format, whether it is some arithmetic format at all,
the column-major contiguity flag, and the logical contents as columns. -/
structure PyBuffer where
  dims : List Nat
  formatIsScalar : Bool
  formatArithmetic : Bool
  fStyle : Bool
  cols : List (List Scalar)
deriving DecidableEq, Repr

/-- Result of a Dataset construction: the dataset plus whether the input
data was copied (as opposed to referenced zero-copy). -/
structure DSResult where
  ds : Dataset
  copied : Bool
deriving DecidableEq, Repr

/-- `MakeDataset(py::array_t<T>)` (dataset.cpp lines 17-38): non-2D
input throws; a scalar-typed, column-major contiguous array is
referenced without copying (lines 28-31); anything else is cast, which
copies (lines 36-37). -/
def MakeDatasetArray (a : NpArray) : Except String DSResult :=
  if a.dims.length ≠ 2 then
    .error "The input array must have exactly two dimensions.\n"
  else if a.tIsScalar ∧ a.fStyle then
    .ok { ds := datasetOfMatrix a.cols, copied := false }
  else
    .ok { ds := datasetOfMatrix a.cols, copied := true }

/-- `MakeDataset(py::buffer)` (dataset.cpp lines 56-74): non-2D input
throws; a buffer whose format equals the scalar format is cast to an
`Eigen::Ref` (lines 64-67) — modelled from the spec, that cast is
zero-copy exactly when the storage is column-major contiguous and
copies otherwise; any other arithmetic format is cast with a copy
(lines 72-73); a non-arithmetic format fails the cast. -/
def MakeDatasetBuffer (b : PyBuffer) : Except String DSResult :=
  if b.dims.length ≠ 2 then
    .error "The buffer must have two dimensions.\n"
  else if b.formatIsScalar then
    .ok { ds := datasetOfMatrix b.cols, copied := !b.fStyle }
  else if b.formatArithmetic then
    .ok { ds := datasetOfMatrix b.cols, copied := true }
  else
    .error "incompatible buffer format"

/-- Read exactly `n` leading elements of a column
(`Eigen::Map(values[i].data(), rows)` at dataset.cpp line 51); `none`
models the out-of-bounds access made when the column holds fewer than
`n` elements. -/
def readColumn (c : List Scalar) (n : Nat) : Option (List Scalar) :=
  if n ≤ c.length then some (c.take n) else none

/-- Read `n` leading elements of every column (the loop at
dataset.cpp lines 50-52). -/
def readColumns (n : Nat) : List (List Scalar) → Option (List (List Scalar))
  | [] => some []
  | c :: cs =>
    match readColumn c n, readColumns n cs with
    | some c2, some cs2 => some (c2 :: cs2)
    | _, _ => none

/-- `MakeDataset(std::vector<std::vector<T>>)` (dataset.cpp lines
40-54): the row count is read from `values[0]` with no emptiness check
(line 45, out of bounds on an empty list, modelled as `none`), and
exactly that many elements are read from every column (line 51). -/
def MakeDatasetLists (values : List (List Scalar)) : Option Dataset :=
  match values with
  | [] => none
  | v0 :: rest =>
    match readColumns v0.length (v0 :: rest) with
    | some cols2 => some (datasetOfMatrix cols2)
    | none => none

/-- `Operon::GeneticAlgorithmConfig` as exposed by pyoperon.cpp lines
103-136: ten fields, every one bound with `def_readwrite`. -/
structure GeneticAlgorithmConfig where
  Generations : Nat
  Evaluations : Nat
  Iterations : Nat
  PopulationSize : Nat
  PoolSize : Nat
  CrossoverProbability : Scalar
  MutationProbability : Scalar
  Epsilon : Scalar
  Seed : Nat
  TimeLimit : Nat
deriving DecidableEq, Repr

/-- The `__init__` lambda of pyoperon.cpp lines 114-126: builds a config
from the ten named arguments in their bound order. -/
def MakeGeneticAlgorithmConfig (gen evals iter popsize poolsize : Nat)
    (pc pm epsilon : Scalar) (seed timelimit : Nat) : GeneticAlgorithmConfig :=
  { Generations := gen
    Evaluations := evals
    Iterations := iter
    PopulationSize := popsize
    PoolSize := poolsize
    CrossoverProbability := pc
    MutationProbability := pm
    Epsilon := epsilon
    Seed := seed
    TimeLimit := timelimit }

/-- Setter generated by `def_readwrite("Generations", …)`
(pyoperon.cpp line 104). -/
def setGenerations (c : GeneticAlgorithmConfig) (v : Nat) : GeneticAlgorithmConfig :=
  { c with Generations := v }

/-- Setter generated by `def_readwrite("Evaluations", …)`
(pyoperon.cpp line 105). -/
def setEvaluations (c : GeneticAlgorithmConfig) (v : Nat) : GeneticAlgorithmConfig :=
  { c with Evaluations := v }

/-- Setter generated by `def_readwrite("Iterations", …)`
(pyoperon.cpp line 106). -/
def setIterations (c : GeneticAlgorithmConfig) (v : Nat) : GeneticAlgorithmConfig :=
  { c with Iterations := v }

/-- Setter generated by `def_readwrite("PopulationSize", …)`
(pyoperon.cpp line 107). -/
def setPopulationSize (c : GeneticAlgorithmConfig) (v : Nat) : GeneticAlgorithmConfig :=
  { c with PopulationSize := v }

/-- Setter generated by `def_readwrite("PoolSize", …)`
(pyoperon.cpp line 108). -/
def setPoolSize (c : GeneticAlgorithmConfig) (v : Nat) : GeneticAlgorithmConfig :=
  { c with PoolSize := v }

/-- Setter generated by `def_readwrite("CrossoverProbability", …)`
(pyoperon.cpp line 109). -/
def setCrossoverProbability (c : GeneticAlgorithmConfig) (v : Scalar) : GeneticAlgorithmConfig :=
  { c with CrossoverProbability := v }

/-- Setter generated by `def_readwrite("MutationProbability", …)`
(pyoperon.cpp line 110). -/
def setMutationProbability (c : GeneticAlgorithmConfig) (v : Scalar) : GeneticAlgorithmConfig :=
  { c with MutationProbability := v }

/-- Setter generated by `def_readwrite("Seed", …)`
(pyoperon.cpp line 111). -/
def setSeed (c : GeneticAlgorithmConfig) (v : Nat) : GeneticAlgorithmConfig :=
  { c with Seed := v }

/-- Setter generated by `def_readwrite("Epsilon", …)`
(pyoperon.cpp line 112). -/
def setEpsilon (c : GeneticAlgorithmConfig) (v : Scalar) : GeneticAlgorithmConfig :=
  { c with Epsilon := v }

/-- Setter generated by `def_readwrite("TimeLimit", …)`
(pyoperon.cpp line 113). -/
def setTimeLimit (c : GeneticAlgorithmConfig) (v : Nat) : GeneticAlgorithmConfig :=
  { c with TimeLimit := v }

/-- Genotype representation: a flat node sequence (the engine `Tree`,
opaque to the claims verified here). -/
structure Tree where
  nodes : List Nat
deriving DecidableEq, Repr, Inhabited

/-- Fitness value: either the `+infinity` penalty sentinel or a finite
scalar. -/
inductive FitVal where
  | inf : FitVal
  | val : Scalar → FitVal
deriving DecidableEq, Repr

/-- Modelled from the spec: `Operon::Individual` as bound in
pyoperon.cpp lines 50-57 — a Genotype paired with a fixed-length
fitness vector, plus the auxiliary rank and crowding-distance data the
comparators read. -/
structure Individual where
  Genotype : Tree
  Fitness : List FitVal
  Rank : Nat
  Distance : Scalar
deriving DecidableEq, Repr

/-- Modelled from the spec: the `Individual(size_t)` constructor
(pyoperon.cpp line 52) allocates a fitness vector of `n` objectives,
each initialised to the `+infinity` penalty sentinel. -/
def mkIndividual (n : Nat) : Individual :=
  { Genotype := { nodes := [] }
    Fitness := List.replicate n FitVal.inf
    Rank := 0
    Distance := 0 }

/-- `GetFitness(i)` (pyoperon.cpp line 57): reads objective `i`. -/
def Individual.GetFitness (ind : Individual) (i : Nat) : FitVal :=
  ind.Fitness.getD i FitVal.inf

/-- `SetFitness(f, i)` (pyoperon.cpp line 56): writes objective `i`. -/
def Individual.SetFitness (ind : Individual) (i : Nat) (f : FitVal) : Individual :=
  { ind with Fitness := ind.Fitness.set i f }

/-- Strict order on fitness values: the `+infinity` sentinel is worse
than every finite value. -/
def FitVal.ltF : FitVal → FitVal → Bool
  | _, FitVal.inf => false
  | FitVal.inf, FitVal.val _ => false
  | FitVal.val x, FitVal.val y => decide (x < y)

/-- `SingleObjectiveComparison` (pyoperon.cpp lines 59-61), constructed
from one objective index. -/
structure SingleObjectiveComparison where
  objIndex : Nat
deriving DecidableEq, Repr

/-- Modelled from the spec: the call operator of
`SingleObjectiveComparison` is a pure function over one fitness entry of
each argument. -/
def SingleObjectiveComparison.call (cmp : SingleObjectiveComparison)
    (a b : Individual) : Bool :=
  FitVal.ltF (a.GetFitness cmp.objIndex) (b.GetFitness cmp.objIndex)

/-- Invocation of the comparator through the binding, with the state of
both arguments after the call made explicit. -/
def SingleObjectiveComparison.invoke (cmp : SingleObjectiveComparison)
    (a b : Individual) : Bool × Individual × Individual :=
  (cmp.call a b, a, b)

/-- `CrowdedComparison` (pyoperon.cpp lines 63-65), default
constructed. -/
structure CrowdedComparison where
  mk ::
deriving DecidableEq, Repr

/-- Modelled from the spec: the call operator of `CrowdedComparison` is
a pure function over rank (lower front first) and crowding distance
(larger distance first as tie-break). -/
def CrowdedComparison.call (_ : CrowdedComparison) (a b : Individual) : Bool :=
  decide (a.Rank < b.Rank) || (decide (a.Rank = b.Rank) && decide (b.Distance < a.Distance))

/-- Invocation of the crowded comparator through the binding, with the
state of both arguments after the call made explicit. -/
def CrowdedComparison.invoke (cmp : CrowdedComparison)
    (a b : Individual) : Bool × Individual × Individual :=
  (cmp.call a b, a, b)

/-- Hash-derivation invariant: every variable's Hash is the hash of its
Name. -/
def Dataset.HashDerived (ds : Dataset) : Prop :=
  ∀ v ∈ ds.vars, v.Hash = specHash v.Name

/-- C1: Dataset construction from an array or buffer whose number of
dimensions is not exactly two fails with the invalid-shape error and no
Dataset is produced; construction from two-dimensional input with
arithmetic element type succeeds. -/
theorem dataset_construction_shape_check (a : NpArray) (b : PyBuffer) :
    (a.dims.length ≠ 2 →
      MakeDatasetArray a = .error "The input array must have exactly two dimensions.\n") ∧
    (b.dims.length ≠ 2 →
      MakeDatasetBuffer b = .error "The buffer must have two dimensions.\n") ∧
    (a.dims.length = 2 → ∃ res, MakeDatasetArray a = .ok res) ∧
    (b.dims.length = 2 → b.formatArithmetic = true →
      ∃ res, MakeDatasetBuffer b = .ok res) := by
  refine ⟨fun h => ?_, fun h => ?_, fun h => ?_, fun h harith => ?_⟩
  · simp [MakeDatasetArray, h]
  · simp [MakeDatasetBuffer, h]
  · by_cases hc : a.tIsScalar ∧ a.fStyle
    · exact ⟨{ ds := datasetOfMatrix a.cols, copied := false },
        by simp [MakeDatasetArray, h, hc]⟩
    · exact ⟨{ ds := datasetOfMatrix a.cols, copied := true },
        by simp [MakeDatasetArray, h, hc]⟩
  · by_cases hc : b.formatIsScalar
    · exact ⟨{ ds := datasetOfMatrix b.cols, copied := !b.fStyle },
        by simp [MakeDatasetBuffer, h, hc]⟩
    · exact ⟨{ ds := datasetOfMatrix b.cols, copied := true },
        by simp [MakeDatasetBuffer, h, hc, harith]⟩

/-- C1 witness: a 3-dimensional array and a 3-dimensional buffer are
rejected with the invalid-shape errors; a 2-dimensional array and a
2-dimensional arithmetic buffer are accepted. -/
theorem dataset_construction_shape_check_witness :
    MakeDatasetArray ⟨[1, 1, 1], true, true, []⟩ =
      .error "The input array must have exactly two dimensions.\n" ∧
    MakeDatasetBuffer ⟨[1, 1, 1], true, true, true, []⟩ =
      .error "The buffer must have two dimensions.\n" ∧
    (∃ res, MakeDatasetArray ⟨[1, 2], true, true, [[1], [2]]⟩ = .ok res) ∧
    (∃ res, MakeDatasetBuffer ⟨[1, 2], false, true, false, [[1], [2]]⟩ = .ok res) :=
  ⟨(dataset_construction_shape_check
      ⟨[1, 1, 1], true, true, []⟩ ⟨[1, 1, 1], true, true, true, []⟩).1 (by decide),
   (dataset_construction_shape_check
      ⟨[1, 1, 1], true, true, []⟩ ⟨[1, 1, 1], true, true, true, []⟩).2.1 (by decide),
   (dataset_construction_shape_check
      ⟨[1, 2], true, true, [[1], [2]]⟩
      ⟨[1, 2], false, true, false, [[1], [2]]⟩).2.2.1 (by decide),
   (dataset_construction_shape_check
      ⟨[1, 2], true, true, [[1], [2]]⟩
      ⟨[1, 2], false, true, false, [[1], [2]]⟩).2.2.2 (by decide) (by decide)⟩

/-- C2 counterexample: the exposed `Generations` setter generated by
`def_readwrite` modifies a constructed config, so the object is not
immutable after construction. -/
theorem gaconfig_immutability_counterexample :
    (setGenerations (MakeGeneticAlgorithmConfig 1 1 1 1 1 1 1 1 1 1) 2).Generations ≠
      (MakeGeneticAlgorithmConfig 1 1 1 1 1 1 1 1 1 1).Generations := by
  decide

/-- C2 amended: the config is constructed from its ten named fields, but
every field is bound read-write, so each exposed setter modifies the
object after construction. -/
theorem gaconfig_fields_and_setters (gen evals iter popsize poolsize : Nat)
    (pc pm epsilon : Scalar) (seed timelimit : Nat)
    (c : GeneticAlgorithmConfig) (v : Nat) (w : Scalar) :
    (MakeGeneticAlgorithmConfig gen evals iter popsize poolsize pc pm epsilon
        seed timelimit).Generations = gen ∧
    (MakeGeneticAlgorithmConfig gen evals iter popsize poolsize pc pm epsilon
        seed timelimit).Evaluations = evals ∧
    (MakeGeneticAlgorithmConfig gen evals iter popsize poolsize pc pm epsilon
        seed timelimit).Iterations = iter ∧
    (MakeGeneticAlgorithmConfig gen evals iter popsize poolsize pc pm epsilon
        seed timelimit).PopulationSize = popsize ∧
    (MakeGeneticAlgorithmConfig gen evals iter popsize poolsize pc pm epsilon
        seed timelimit).PoolSize = poolsize ∧
    (MakeGeneticAlgorithmConfig gen evals iter popsize poolsize pc pm epsilon
        seed timelimit).CrossoverProbability = pc ∧
    (MakeGeneticAlgorithmConfig gen evals iter popsize poolsize pc pm epsilon
        seed timelimit).MutationProbability = pm ∧
    (MakeGeneticAlgorithmConfig gen evals iter popsize poolsize pc pm epsilon
        seed timelimit).Epsilon = epsilon ∧
    (MakeGeneticAlgorithmConfig gen evals iter popsize poolsize pc pm epsilon
        seed timelimit).Seed = seed ∧
    (MakeGeneticAlgorithmConfig gen evals iter popsize poolsize pc pm epsilon
        seed timelimit).TimeLimit = timelimit ∧
    (setGenerations c v).Generations = v ∧
    (setEvaluations c v).Evaluations = v ∧
    (setIterations c v).Iterations = v ∧
    (setPopulationSize c v).PopulationSize = v ∧
    (setPoolSize c v).PoolSize = v ∧
    (setCrossoverProbability c w).CrossoverProbability = w ∧
    (setMutationProbability c w).MutationProbability = w ∧
    (setEpsilon c w).Epsilon = w ∧
    (setSeed c v).Seed = v ∧
    (setTimeLimit c v).TimeLimit = v :=
  ⟨rfl, rfl, rfl, rfl, rfl, rfl, rfl, rfl, rfl, rfl,
   rfl, rfl, rfl, rfl, rfl, rfl, rfl, rfl, rfl, rfl⟩

/-- C5: a two-dimensional array of the engine scalar type in
column-major contiguous storage is referenced without copying; every
other two-dimensional numeric input is copied; in both cases the
resulting Dataset holds the input values. -/
theorem dataset_copy_semantics (a : NpArray) (b : PyBuffer)
    (ha : a.dims.length = 2) (hb : b.dims.length = 2) :
    (a.tIsScalar = true → a.fStyle = true →
      MakeDatasetArray a = .ok { ds := datasetOfMatrix a.cols, copied := false }) ∧
    (¬(a.tIsScalar = true ∧ a.fStyle = true) →
      MakeDatasetArray a = .ok { ds := datasetOfMatrix a.cols, copied := true }) ∧
    (b.formatIsScalar = true → b.fStyle = true →
      MakeDatasetBuffer b = .ok { ds := datasetOfMatrix b.cols, copied := false }) ∧
    (b.formatArithmetic = true → ¬(b.formatIsScalar = true ∧ b.fStyle = true) →
      MakeDatasetBuffer b = .ok { ds := datasetOfMatrix b.cols, copied := true }) ∧
    (∀ res, MakeDatasetArray a = .ok res → res.ds.cols = a.cols) ∧
    (∀ res, MakeDatasetBuffer b = .ok res → res.ds.cols = b.cols) := by
  refine ⟨fun h1 h2 => ?_, fun h1 => ?_, fun h1 h2 => ?_, fun h1 h2 => ?_,
    fun res hres => ?_, fun res hres => ?_⟩
  · simp [MakeDatasetArray, ha, h1, h2]
  · simp only [not_and_or, Bool.not_eq_true] at h1
    rcases h1 with h1 | h1 <;> simp [MakeDatasetArray, ha, h1]
  · simp [MakeDatasetBuffer, hb, h1, h2]
  · simp only [not_and_or, Bool.not_eq_true] at h2
    rcases h2 with h2 | h2
    · simp [MakeDatasetBuffer, hb, h2, h1]
    · by_cases hsc : b.formatIsScalar <;> simp [MakeDatasetBuffer, hb, hsc, h1, h2]
  · revert hres
    by_cases hc : a.tIsScalar ∧ a.fStyle <;>
      simp [MakeDatasetArray, ha, hc, datasetOfMatrix] <;> rintro rfl <;> rfl
  · revert hres
    by_cases hsc : b.formatIsScalar
    · simp [MakeDatasetBuffer, hb, hsc, datasetOfMatrix]
      rintro rfl; rfl
    · by_cases harith : b.formatArithmetic
      · simp [MakeDatasetBuffer, hb, hsc, harith, datasetOfMatrix]
        rintro rfl; rfl
      · simp [MakeDatasetBuffer, hb, hsc, harith, datasetOfMatrix]

/-- C5 witness: a scalar column-major array is taken by reference, a
row-major double buffer is copied, and both hold the input values. -/
theorem dataset_copy_semantics_witness :
    MakeDatasetArray ⟨[1, 2], true, true, [[1], [2]]⟩ =
      .ok ⟨datasetOfMatrix [[1], [2]], false⟩ ∧
    MakeDatasetBuffer ⟨[1, 2], false, true, false, [[1], [2]]⟩ =
      .ok ⟨datasetOfMatrix [[1], [2]], true⟩ ∧
    MakeDatasetArray ⟨[1, 2], false, true, [[1], [2]]⟩ =
      .ok ⟨datasetOfMatrix [[1], [2]], true⟩ :=
  ⟨(dataset_copy_semantics ⟨[1, 2], true, true, [[1], [2]]⟩
      ⟨[1, 2], false, true, false, [[1], [2]]⟩ (by decide) (by decide)).1
      (by decide) (by decide),
   (dataset_copy_semantics ⟨[1, 2], true, true, [[1], [2]]⟩
      ⟨[1, 2], false, true, false, [[1], [2]]⟩ (by decide) (by decide)).2.2.2.1
      (by decide) (by decide),
   (dataset_copy_semantics ⟨[1, 2], false, true, [[1], [2]]⟩
      ⟨[1, 2], false, true, false, [[1], [2]]⟩ (by decide) (by decide)).2.1
      (by decide)⟩

/-- C6: a freshly constructed Individual with `n` objectives carries the
`+infinity` penalty sentinel in every fitness entry, and an entry not
touched by `SetFitness` still reads back as the sentinel. -/
theorem individual_fitness_sentinel (n i : Nat) (hi : i < n) :
    (mkIndividual n).GetFitness i = FitVal.inf ∧
    ∀ j f, j ≠ i →
      ((mkIndividual n).SetFitness j f).GetFitness i = FitVal.inf := by
  constructor
  · simp [mkIndividual, Individual.GetFitness, List.getD_eq_getElem?_getD,
      List.getElem?_replicate, hi]
  · intro j f hj
    simp [mkIndividual, Individual.GetFitness, Individual.SetFitness,
      List.getD_eq_getElem?_getD, List.getElem?_set_ne hj,
      List.getElem?_replicate, hi]

/-- C6 witness: both objectives of a fresh two-objective Individual read
as the sentinel, and objective 0 still does after objective 1 is set. -/
theorem individual_fitness_sentinel_witness :
    (mkIndividual 2).GetFitness 0 = FitVal.inf ∧
    ((mkIndividual 2).SetFitness 1 (FitVal.val 5)).GetFitness 0 = FitVal.inf :=
  ⟨(individual_fitness_sentinel 2 0 (by decide)).1,
   (individual_fitness_sentinel 2 0 (by decide)).2 1 (FitVal.val 5) (by decide)⟩

/-- C7: invoking either comparator returns both Individuals unchanged —
in particular their Genotype — and the comparison result depends only on
Fitness, Rank and Distance, never on Genotype. -/
theorem comparators_frame (s : SingleObjectiveComparison) (c : CrowdedComparison)
    (a b a2 b2 : Individual)
    (haf : a2.Fitness = a.Fitness) (har : a2.Rank = a.Rank)
    (had : a2.Distance = a.Distance)
    (hbf : b2.Fitness = b.Fitness) (hbr : b2.Rank = b.Rank)
    (hbd : b2.Distance = b.Distance) :
    (s.invoke a b).2.1 = a ∧ (s.invoke a b).2.2 = b ∧
    (s.invoke a b).2.1.Genotype = a.Genotype ∧
    (s.invoke a b).2.2.Genotype = b.Genotype ∧
    (c.invoke a b).2.1 = a ∧ (c.invoke a b).2.2 = b ∧
    (c.invoke a b).2.1.Genotype = a.Genotype ∧
    (c.invoke a b).2.2.Genotype = b.Genotype ∧
    s.call a2 b2 = s.call a b ∧
    c.call a2 b2 = c.call a b := by
  refine ⟨rfl, rfl, rfl, rfl, rfl, rfl, rfl, rfl, ?_, ?_⟩
  · simp [SingleObjectiveComparison.call, Individual.GetFitness, haf, hbf]
  · simp [CrowdedComparison.call, har, hbr, had, hbd]

/-- C7 witness: at two Individuals whose Genotypes differ from their
fitness-equal copies, both comparators leave Genotypes unchanged and
judge the copies identically. -/
theorem comparators_frame_witness :
    ((SingleObjectiveComparison.mk 0).invoke (mkIndividual 1)
        ((mkIndividual 1).SetFitness 0 (FitVal.val 3))).2.1.Genotype =
      (mkIndividual 1).Genotype ∧
    (SingleObjectiveComparison.mk 0).call
        { mkIndividual 1 with Genotype := { nodes := [7] } }
        { (mkIndividual 1).SetFitness 0 (FitVal.val 3) with
            Genotype := { nodes := [8] } } =
      (SingleObjectiveComparison.mk 0).call (mkIndividual 1)
        ((mkIndividual 1).SetFitness 0 (FitVal.val 3)) ∧
    CrowdedComparison.mk.call
        { mkIndividual 1 with Genotype := { nodes := [7] } }
        { (mkIndividual 1).SetFitness 0 (FitVal.val 3) with
            Genotype := { nodes := [8] } } =
      CrowdedComparison.mk.call (mkIndividual 1)
        ((mkIndividual 1).SetFitness 0 (FitVal.val 3)) :=
  ⟨(comparators_frame (SingleObjectiveComparison.mk 0) CrowdedComparison.mk
      (mkIndividual 1) ((mkIndividual 1).SetFitness 0 (FitVal.val 3))
      { mkIndividual 1 with Genotype := { nodes := [7] } }
      { (mkIndividual 1).SetFitness 0 (FitVal.val 3) with Genotype := { nodes := [8] } }
      rfl rfl rfl rfl rfl rfl).2.2.1,
   (comparators_frame (SingleObjectiveComparison.mk 0) CrowdedComparison.mk
      (mkIndividual 1) ((mkIndividual 1).SetFitness 0 (FitVal.val 3))
      { mkIndividual 1 with Genotype := { nodes := [7] } }
      { (mkIndividual 1).SetFitness 0 (FitVal.val 3) with Genotype := { nodes := [8] } }
      rfl rfl rfl rfl rfl rfl).2.2.2.2.2.2.2.2.1,
   (comparators_frame (SingleObjectiveComparison.mk 0) CrowdedComparison.mk
      (mkIndividual 1) ((mkIndividual 1).SetFitness 0 (FitVal.val 3))
      { mkIndividual 1 with Genotype := { nodes := [7] } }
      { (mkIndividual 1).SetFitness 0 (FitVal.val 3) with Genotype := { nodes := [8] } }
      rfl rfl rfl rfl rfl rfl).2.2.2.2.2.2.2.2.2⟩

/-- C3: constructing a Dataset from a two-dimensional numeric buffer and
reading back `GetValues` for every column index reproduces the original
column values exactly. -/
theorem dataset_roundtrip (b : PyBuffer) (hb : b.dims.length = 2)
    (harith : b.formatArithmetic = true) :
    ∃ res, MakeDatasetBuffer b = .ok res ∧
      res.ds.ColsN = b.cols.length ∧
      ∀ j, res.ds.GetValuesIdx j = b.cols.getD j [] := by
  by_cases hsc : b.formatIsScalar
  · exact ⟨⟨datasetOfMatrix b.cols, !b.fStyle⟩,
      by simp [MakeDatasetBuffer, hb, hsc], rfl, fun j => rfl⟩
  · exact ⟨⟨datasetOfMatrix b.cols, true⟩,
      by simp [MakeDatasetBuffer, hb, hsc, harith], rfl, fun j => rfl⟩

/-- C3 witness: a concrete 2x2 scalar buffer rebuilds both of its
columns through `GetValues`. -/
theorem dataset_roundtrip_witness :
    ∃ res, MakeDatasetBuffer ⟨[2, 2], true, true, true, [[1, 2], [3, 4]]⟩ = .ok res ∧
      res.ds.ColsN = 2 ∧
      ∀ j, res.ds.GetValuesIdx j = [[(1 : Scalar), 2], [3, 4]].getD j [] :=
  dataset_roundtrip ⟨[2, 2], true, true, true, [[1, 2], [3, 4]]⟩ (by decide) (by decide)

/-- Column transforms preserve the column length: Normalize. -/
theorem length_normalizeColumn (c : List Scalar) (r : Range) :
    (normalizeColumn c r).length = c.length := by
  simp [normalizeColumn]

/-- Column transforms preserve the column length: Standardize. -/
theorem length_standardizeColumn (c : List Scalar) (r : Range) :
    (standardizeColumn c r).length = c.length := by
  simp [standardizeColumn]

/-- Replacing one column by a column of the same length keeps the length
of the first column (the row count). -/
theorem headD_length_set (cols : List (List Scalar)) (j : Nat) (c2 : List Scalar)
    (hlen : c2.length = (cols.getD j []).length) :
    ((cols.set j c2).headD []).length = (cols.headD []).length := by
  cases cols with
  | nil => simp
  | cons c cs =>
    cases j with
    | zero => simpa using hlen
    | succ k => simp

/-- Reading any column other than the replaced one is unchanged. -/
theorem getD_set_ne_col (cols : List (List Scalar)) (i j : Nat) (c2 : List Scalar)
    (hij : i ≠ j) : (cols.set j c2).getD i [] = cols.getD i [] := by
  simp only [List.getD_eq_getElem?_getD]
  rw [List.getElem?_set_ne (Ne.symm hij)]

/-- Reading the replaced column gives the new column (or stays empty
when the index is out of range and the replacement was a no-op). -/
theorem getD_set_self_col (cols : List (List Scalar)) (j : Nat) (c2 : List Scalar)
    (hj : j < cols.length) : (cols.set j c2).getD j [] = c2 := by
  simp only [List.getD_eq_getElem?_getD]
  rw [List.getElem?_set_self hj]
  rfl

/-- C8: `Shuffle`, `Normalize` and `Standardize` never change the row
count, the column count or the variable descriptors; Shuffle only
permutes each column and Normalize/Standardize only rewrite the targeted
column pointwise, leaving every other column untouched. -/
theorem dataset_mutators_frame (ds : Dataset) (seed j : Nat) (r : Range) :
    (ds.Shuffle seed).RowsN = ds.RowsN ∧
    (ds.Shuffle seed).ColsN = ds.ColsN ∧
    (ds.Shuffle seed).vars = ds.vars ∧
    (∀ i, ((ds.Shuffle seed).GetValuesIdx i).Perm (ds.GetValuesIdx i)) ∧
    (ds.Normalize j r).RowsN = ds.RowsN ∧
    (ds.Normalize j r).ColsN = ds.ColsN ∧
    (ds.Normalize j r).vars = ds.vars ∧
    (∀ i, i ≠ j → (ds.Normalize j r).GetValuesIdx i = ds.GetValuesIdx i) ∧
    (∃ f, (ds.Normalize j r).GetValuesIdx j = (ds.GetValuesIdx j).map f) ∧
    (ds.Standardize j r).RowsN = ds.RowsN ∧
    (ds.Standardize j r).ColsN = ds.ColsN ∧
    (ds.Standardize j r).vars = ds.vars ∧
    (∀ i, i ≠ j → (ds.Standardize j r).GetValuesIdx i = ds.GetValuesIdx i) ∧
    (∃ f, (ds.Standardize j r).GetValuesIdx j = (ds.GetValuesIdx j).map f) := by
  have hShufRows : (ds.Shuffle seed).RowsN = ds.RowsN := by
    cases h : ds.cols with
    | nil => simp [Dataset.Shuffle, Dataset.RowsN, h]
    | cons c cs => simp [Dataset.Shuffle, Dataset.RowsN, h]
  have hShufPerm : ∀ i, ((ds.Shuffle seed).GetValuesIdx i).Perm (ds.GetValuesIdx i) := by
    intro i
    simp only [Dataset.Shuffle, Dataset.GetValuesIdx, List.getD_eq_getElem?_getD,
      List.getElem?_map]
    cases h : ds.cols[i]? with
    | none => exact List.Perm.refl _
    | some c => simpa using List.rotate_perm c seed
  have hempty : ds.cols.length ≤ j → ds.GetValuesIdx j = [] := fun hle => by
    simp [Dataset.GetValuesIdx, List.getD_eq_getElem?_getD, List.getElem?_eq_none hle]
  have hNormConc : (ds.Normalize j r).GetValuesIdx j =
      normalizeColumn (ds.GetValuesIdx j) r := by
    by_cases hj : j < ds.cols.length
    · exact getD_set_self_col _ _ _ hj
    · have hle := Nat.le_of_not_lt hj
      show (ds.cols.set j _).getD j [] = _
      rw [List.set_eq_of_length_le hle]
      show ds.GetValuesIdx j = _
      rw [hempty hle]
      simp [normalizeColumn]
  have hStdConc : (ds.Standardize j r).GetValuesIdx j =
      standardizeColumn (ds.GetValuesIdx j) r := by
    by_cases hj : j < ds.cols.length
    · exact getD_set_self_col _ _ _ hj
    · have hle := Nat.le_of_not_lt hj
      show (ds.cols.set j _).getD j [] = _
      rw [List.set_eq_of_length_le hle]
      show ds.GetValuesIdx j = _
      rw [hempty hle]
      simp [standardizeColumn]
  refine ⟨hShufRows, ?_, rfl, hShufPerm,
    headD_length_set _ _ _ (length_normalizeColumn _ _), ?_, rfl,
    fun i hij => getD_set_ne_col _ _ _ _ hij,
    ⟨fun x => (x - columnMin (ds.GetValuesIdx j) r) /
        (columnMax (ds.GetValuesIdx j) r - columnMin (ds.GetValuesIdx j) r),
      by rw [hNormConc]; rfl⟩,
    headD_length_set _ _ _ (length_standardizeColumn _ _), ?_, rfl,
    fun i hij => getD_set_ne_col _ _ _ _ hij,
    ⟨fun x => (x - columnMean (ds.GetValuesIdx j) r) / columnVar (ds.GetValuesIdx j) r,
      by rw [hStdConc]; rfl⟩⟩
  · simp [Dataset.Shuffle, Dataset.ColsN]
  · simp [Dataset.Normalize, Dataset.ColsN]
  · simp [Dataset.Standardize, Dataset.ColsN]

/-- C8 witness: at a concrete two-column dataset, shuffling keeps shape
and variables, and normalizing column 1 leaves column 0 untouched. -/
theorem dataset_mutators_frame_witness :
    ((datasetOfMatrix [[1, 2], [3, 4]]).Shuffle 1).RowsN =
      (datasetOfMatrix [[1, 2], [3, 4]]).RowsN ∧
    ((datasetOfMatrix [[1, 2], [3, 4]]).Shuffle 1).vars =
      (datasetOfMatrix [[1, 2], [3, 4]]).vars ∧
    ((datasetOfMatrix [[1, 2], [3, 4]]).Normalize 1 ⟨0, 2⟩).GetValuesIdx 0 =
      (datasetOfMatrix [[1, 2], [3, 4]]).GetValuesIdx 0 :=
  ⟨(dataset_mutators_frame (datasetOfMatrix [[1, 2], [3, 4]]) 1 1 ⟨0, 2⟩).1,
   (dataset_mutators_frame (datasetOfMatrix [[1, 2], [3, 4]]) 1 1 ⟨0, 2⟩).2.2.1,
   (dataset_mutators_frame (datasetOfMatrix [[1, 2], [3, 4]]) 1 1
      ⟨0, 2⟩).2.2.2.2.2.2.2.1 0 (by decide)⟩

/-- Character digits stay below the encoding base. -/
theorem char_digit_lt (c : Char) : c.toNat + 1 < 2 ^ 33 := by
  have := c.val.toNat_lt
  simp only [Char.toNat]
  simp only [UInt32.size] at this
  omega

/-- Characters with equal code points are equal. -/
theorem char_eq_of_toNat_eq {a b : Char} (h : a.toNat = b.toNat) : a = b := by
  apply Char.ext
  apply UInt32.ext
  simpa [Char.toNat, UInt32.toNat] using h

/-- The base-`2 ^ 33` character encoding is injective. -/
theorem encodeChars_injective : ∀ x y : List Char, encodeChars x = encodeChars y → x = y := by
  intro x
  induction x with
  | nil =>
    intro y hy
    cases y with
    | nil => rfl
    | cons d ds =>
      exfalso
      simp only [encodeChars] at hy
      omega
  | cons c cs ih =>
    intro y hy
    cases y with
    | nil =>
      exfalso
      simp only [encodeChars] at hy
      omega
    | cons d ds =>
      simp only [encodeChars] at hy
      have hc := char_digit_lt c
      have hd := char_digit_lt d
      have hsplit : c.toNat = d.toNat ∧ encodeChars cs = encodeChars ds := by
        constructor <;> omega
      rw [char_eq_of_toNat_eq hsplit.1, ih ds hsplit.2]

/-- The name hash is injective. -/
theorem specHash_injective : Function.Injective specHash := by
  intro s t h
  exact String.ext (encodeChars_injective _ _ h)

/-- C9 counterexample: assigning `VariableNames` — an operation exposed
by the binding (dataset.cpp line 92) — re-derives the hashes from the
new names, so the Hash values of a Dataset are not stable across its
lifetime. -/
theorem variable_hash_unstable_counterexample :
    ((datasetOfMatrix [[1], [2]]).SetVariableNames ["a", "b"]).vars.map Variable.Hash ≠
      (datasetOfMatrix [[1], [2]]).vars.map Variable.Hash := by
  decide

/-- C9 amended: every variable Hash is derived from its Name, Hash
values are unique whenever the names are distinct, and they are
preserved by `Shuffle`, `Normalize` and `Standardize`; only the exposed
`VariableNames` assignment re-derives them from the new names. -/
theorem variable_hash_invariant (m : List (List Scalar)) (names : List String)
    (ds : Dataset) (seed j : Nat) (r : Range) (hder : ds.HashDerived)
    (hnames : (ds.vars.map Variable.Name).Nodup) :
    (datasetOfMatrix m).HashDerived ∧
    (ds.SetVariableNames names).HashDerived ∧
    (ds.Shuffle seed).vars = ds.vars ∧
    (ds.Normalize j r).vars = ds.vars ∧
    (ds.Standardize j r).vars = ds.vars ∧
    (ds.vars.map Variable.Hash).Nodup := by
  refine ⟨?_, ?_, rfl, rfl, rfl, ?_⟩
  · intro v hv
    simp only [datasetOfMatrix, List.mem_map, List.mem_range] at hv
    obtain ⟨i, _, rfl⟩ := hv
    rfl
  · intro v hv
    simp only [Dataset.SetVariableNames, List.mem_map, List.mem_range] at hv
    obtain ⟨i, _, rfl⟩ := hv
    rfl
  · have hmap : ds.vars.map Variable.Hash =
        (ds.vars.map Variable.Name).map specHash := by
      rw [List.map_map]
      exact List.map_congr_left hder
    rw [hmap]
    exact hnames.map specHash_injective

/-- C9 witness: the default construction satisfies the hash-derivation
invariant with distinct names, so its hashes are pairwise distinct and
survive a shuffle. -/
theorem variable_hash_invariant_witness :
    ((datasetOfMatrix [[1], [2]]).Shuffle 3).vars = (datasetOfMatrix [[1], [2]]).vars ∧
    ((datasetOfMatrix [[1], [2]]).vars.map Variable.Hash).Nodup :=
  ⟨(variable_hash_invariant [] ["c"] (datasetOfMatrix [[1], [2]]) 3 0 ⟨0, 1⟩
      (by unfold Dataset.HashDerived; decide) (by decide)).2.2.1,
   (variable_hash_invariant [] ["c"] (datasetOfMatrix [[1], [2]]) 3 0 ⟨0, 1⟩
      (by unfold Dataset.HashDerived; decide) (by decide)).2.2.2.2.2⟩

/-- Reading `n` elements of every column succeeds exactly when every
column holds at least `n` elements. -/
theorem readColumns_isSome (n : Nat) (l : List (List Scalar)) :
    (readColumns n l).isSome = true ↔ ∀ c ∈ l, n ≤ c.length := by
  induction l with
  | nil => simp [readColumns]
  | cons c cs ih =>
    by_cases hc : n ≤ c.length
    · cases hcs : readColumns n cs with
      | none =>
        simp only [readColumns, readColumn, if_pos hc, hcs]
        simp only [hcs] at ih
        simp only [Option.isSome_none, Bool.false_eq_true, false_iff] at ih ⊢
        push_neg at ih ⊢
        obtain ⟨c2, hc2, hlen⟩ := ih
        exact ⟨c2, List.mem_cons_of_mem _ hc2, hlen⟩
      | some cs2 =>
        simp only [readColumns, readColumn, if_pos hc, hcs]
        simp only [hcs] at ih
        simp only [Option.isSome_some, true_iff] at ih
        simp only [Option.isSome_some, true_iff, List.mem_cons]
        rintro x (rfl | hx)
        · exact hc
        · exact ih x hx
    · have hnone : readColumns n (c :: cs) = none := by
        cases hrest : readColumns n cs <;>
          simp [readColumns, readColumn, if_neg hc, hrest]
      rw [hnone]
      simp only [Option.isSome_none, Bool.false_eq_true, false_iff]
      push_neg
      exact ⟨c, List.mem_cons_self c cs, by omega⟩

/-- When every column is long enough, reading gives the `n`-element
truncation of every column. -/
theorem readColumns_eq_some (n : Nat) (l : List (List Scalar))
    (h : ∀ c ∈ l, n ≤ c.length) :
    readColumns n l = some (l.map fun c => c.take n) := by
  induction l with
  | nil => rfl
  | cons c cs ih =>
    have hc : n ≤ c.length := h c (List.mem_cons_self c cs)
    have hcs := ih fun x hx => h x (List.mem_cons_of_mem _ hx)
    simp [readColumns, readColumn, if_pos hc, hcs]

/-- C10 amended: the list-of-columns constructor is well-defined exactly
when the list is non-empty and every column holds at least as many
elements as the first (the constructor reads `values[0].size()` elements
from every column, so a shorter column or an empty list accesses out of
bounds, while a longer column is merely truncated); on success the
stored columns are the truncations of the input columns. -/
theorem makedataset_lists_characterization (values : List (List Scalar)) :
    ((MakeDatasetLists values).isSome = true ↔
      values ≠ [] ∧ ∀ c ∈ values, (values.headD []).length ≤ c.length) ∧
    ∀ ds, MakeDatasetLists values = some ds →
      ds.cols = values.map fun c => c.take (values.headD []).length := by
  cases values with
  | nil =>
    constructor
    · simp [MakeDatasetLists]
    · intro ds h
      simp [MakeDatasetLists] at h
  | cons v0 rest =>
    constructor
    · rw [show ((v0 :: rest).headD []).length = v0.length from rfl]
      constructor
      · intro h
        refine ⟨by simp, ?_⟩
        rw [← readColumns_isSome]
        revert h
        cases hrc : readColumns v0.length (v0 :: rest) <;>
          simp [MakeDatasetLists, hrc]
      · rintro ⟨-, h⟩
        simp [MakeDatasetLists, readColumns_eq_some _ _ h]
    · intro ds h
      have hall : ∀ c ∈ v0 :: rest, v0.length ≤ c.length := by
        rw [← readColumns_isSome]
        revert h
        cases hrc : readColumns v0.length (v0 :: rest) <;>
          simp [MakeDatasetLists, hrc]
      rw [show ((v0 :: rest).headD []).length = v0.length from rfl]
      have hrc := readColumns_eq_some _ _ hall
      rw [MakeDatasetLists, hrc] at h
      simp only [Option.some.injEq] at h
      rw [← h]
      rfl

/-- C10 counterexample: a ragged input whose second column is longer
than the first violates the equal-length precondition yet constructs
fine — only shorter columns (or an empty list) go out of bounds. -/
theorem makedataset_lists_ragged_counterexample :
    (MakeDatasetLists [[(1 : Scalar)], [2, 3]]).isSome = true ∧
    ¬ ∀ c ∈ [[(1 : Scalar)], [2, 3]], c.length = [(1 : Scalar)].length := by
  constructor
  · decide
  · intro h
    exact absurd (h [2, 3] (by simp)) (by decide)

/-- C10 witness: at a concrete well-formed input the constructor
succeeds and stores the truncated columns. -/
theorem makedataset_lists_characterization_witness :
    (MakeDatasetLists [[(1 : Scalar)], [2]]).isSome = true ∧
    (datasetOfMatrix [[(1 : Scalar)], [2]]).cols =
      [[(1 : Scalar)], [2]].map fun c => c.take 1 :=
  ⟨(makedataset_lists_characterization [[(1 : Scalar)], [2]]).1.mpr
      ⟨by decide, by decide⟩,
   (makedataset_lists_characterization [[(1 : Scalar)], [2]]).2
      (datasetOfMatrix [[(1 : Scalar)], [2]]) (by decide)⟩

end PyOperon
